import Mathlib

/-!
Verification of the tide-predictions service (the handler module of
`bdougherty/tide-predictions`).

The development shallowly embeds the request pipeline of the source file:
station-name normalisation (`formatTideStationName`), great-circle distance
(`calculateDistance`, via `@turf/distance`'s haversine formula over exact
reals), coordinate validation (`validateLatitudeAndLongitude`), the
nearest-station search (`getStationsNear`), the prediction-request builder
(`fetchPredictionsForTideStation`), the directory refresh
(`fetchTideStations`) and the four route handlers.  JavaScript numbers that
can be `NaN` are modelled as `Option ℝ` (`none` = `NaN`); upstream fetches
are modelled as explicit oracle functions so that theorems can quantify over
every possible upstream behaviour.
-/

namespace TidePred

/-! ## Characters and case conversion (ASCII, as used by the station names) -/

/-- ASCII lower-casing of one character, the behaviour of
JavaScript `String.prototype.toLowerCase` on the ASCII range. -/
def lowerChar (c : Char) : Char :=
  if 'A' ≤ c ∧ c ≤ 'Z' then Char.ofNat (c.toNat + 32) else c

/-- ASCII upper-casing of one character, as used by title-casing. -/
def upperChar (c : Char) : Char :=
  if 'a' ≤ c ∧ c ≤ 'z' then Char.ofNat (c.toNat - 32) else c

/-- Lower-case every character of a string (as a character list). -/
def toLowerList (s : List Char) : List Char :=
  s.map lowerChar

/-- First-occurrence substring replacement: the semantics of JavaScript
`String.prototype.replace` with a plain-string pattern, used by the name
formatter as `.replace('u.s.', 'U.S.')`. -/
def replaceFirst (pat rep : List Char) : List Char → List Char
  | [] => if pat.isPrefixOf ([] : List Char) then rep else []
  | c :: cs =>
    if pat.isPrefixOf (c :: cs) then rep ++ (c :: cs).drop pat.length
    else c :: replaceFirst pat rep cs

/-! ## Title casing

Modelled from the spec: the `titlecase` package's `toLaxTitleCase` is not part
of the repository; the spec describes it as "capitalize each word, respecting
a small set of case-insensitive minor words such as articles/prepositions
that stay lower-case unless first/last in the string". -/

/-- Modelled from the spec: the minor words of conventional English
title-casing that stay lower-case unless first or last. -/
def minorWords : List (List Char) :=
  [['a'], ['a', 'n'], ['a', 'n', 'd'], ['a', 's'], ['a', 't'], ['b', 'u', 't'],
   ['b', 'y'], ['e', 'n'], ['f', 'o', 'r'], ['i', 'f'], ['i', 'n'],
   ['o', 'f'], ['o', 'n'], ['o', 'r'], ['t', 'h', 'e'], ['t', 'o'],
   ['v', 'i', 'a'], ['v', 's']]

/-- Upper-case the first character of a word, leaving the rest alone
(the "lax" variant of title casing does not lower-case the remainder). -/
def capitalizeWord : List Char → List Char
  | [] => []
  | c :: cs => upperChar c :: cs

/-- Split a character list into words at single space characters.
Always returns a non-empty list of (possibly empty) words. -/
def splitWords : List Char → List (List Char)
  | [] => [[]]
  | c :: cs =>
    match splitWords cs with
    | [] => [[]]
    | w :: ws => if c = ' ' then [] :: w :: ws else (c :: w) :: ws

/-- Join words back with single spaces: inverse of `splitWords`. -/
def joinWords : List (List Char) → List Char
  | [] => []
  | [w] => w
  | w :: ws => w ++ ' ' :: joinWords ws

/-- Map over a list with the index of each element available. -/
def mapWithIndex (f : Nat → α → β) : Nat → List α → List β
  | _, [] => []
  | i, a :: as => f i a :: mapWithIndex f (i + 1) as

/-- Modelled from the spec: `toLaxTitleCase` of the `titlecase` package
(not in the repository).  Every word is capitalised except minor words that
are neither the first nor the last word of the string. -/
def titleCase (s : List Char) : List Char :=
  let ws := splitWords s
  joinWords (mapWithIndex
    (fun i w =>
      if i ≠ 0 ∧ i ≠ ws.length - 1 ∧ toLowerList w ∈ minorWords then w
      else capitalizeWord w) 0 ws)

/-- The literal pattern `u.s.` of the abbreviation fix-up. -/
def usLower : List Char := ['u', '.', 's', '.']

/-- The literal replacement `U.S.` of the abbreviation fix-up. -/
def usUpper : List Char := ['U', '.', 'S', '.']

/-- The station-name normaliser of the source:
`titleCase(name.toLowerCase().replace('u.s.', 'U.S.'))`. -/
def formatTideStationName (s : List Char) : List Char :=
  titleCase (replaceFirst usLower usUpper (toLowerList s))

/-! ## JavaScript numbers and `parseFloat`

A JavaScript number reaching the pipeline is modelled by `Option ℝ`, with
`none` standing for `NaN`.  `parseFloat` of a route-matched coordinate string
is modelled exactly (the route pattern `[.-\d]+` admits only digits, dots and
dashes, so the exponent and infinity forms of `parseFloat` cannot occur). -/

/-- A JavaScript number: `none` is `NaN`. -/
abbrev JsNum := Option ℝ

/-- Decimal digit test. -/
def isDigitChar (c : Char) : Bool :=
  '0' ≤ c ∧ c ≤ '9'

/-- Numeric value of a digit character. -/
def digitVal (c : Char) : ℕ :=
  c.toNat - 48

/-- Value of a digit string read left to right. -/
def digitsVal (ds : List Char) : ℕ :=
  ds.foldl (fun acc c => 10 * acc + digitVal c) 0

/-- Leading sign of a numeric literal (`true` = negative). -/
def splitSign : List Char → Bool × List Char
  | '-' :: t => (true, t)
  | '+' :: t => (false, t)
  | t => (false, t)

/-- Apply a parsed sign to a magnitude. -/
def applySign (neg : Bool) (v : ℚ) : ℚ :=
  if neg then -v else v

/-- JavaScript `parseFloat`, restricted to the sign/digits/dot forms that the
route pattern `[.-\d]+` can produce; `none` is the `NaN` result.  Trailing
garbage is ignored, exactly as `parseFloat` does. -/
def jsParseFloat (s : String) : Option ℚ :=
  match splitSign s.data with
  | (neg, rest) =>
    match rest.dropWhile isDigitChar with
    | '.' :: t =>
      if (rest.takeWhile isDigitChar).isEmpty ∧ (t.takeWhile isDigitChar).isEmpty then
        none
      else
        some (applySign neg ((digitsVal (rest.takeWhile isDigitChar) : ℚ) +
          (digitsVal (t.takeWhile isDigitChar) : ℚ) /
            (10 : ℚ) ^ (t.takeWhile isDigitChar).length))
    | _ =>
      if (rest.takeWhile isDigitChar).isEmpty then none
      else some (applySign neg (digitsVal (rest.takeWhile isDigitChar) : ℚ))

/-- The parsed value of a coordinate string as a JavaScript number. -/
noncomputable def toJsNum (s : String) : JsNum :=
  (jsParseFloat s).map (fun q => (q : ℝ))

/-- The route pattern `[.-\d]+` for a coordinate path segment. -/
def coordSegMatches (s : String) : Bool :=
  !s.data.isEmpty && s.data.all (fun c => c == '.' || c == '-' || isDigitChar c)

/-! ## Great-circle distance (`@turf/distance`, haversine, kilometres)

The floating-point formula of the dependency is embedded over exact reals:
`2 * atan2(√a, √(1-a))` radians scaled by the Earth radius, with
`a = sin²(Δlat/2) + sin²(Δlon/2)·cos(lat1)·cos(lat2)` in radians. -/

/-- Degrees to radians. -/
noncomputable def degToRad (d : ℝ) : ℝ :=
  d * Real.pi / 180

/-- JavaScript `Math.atan2` on real arguments. -/
noncomputable def atan2 (y x : ℝ) : ℝ :=
  if 0 < x then Real.arctan (y / x)
  else if x < 0 ∧ 0 ≤ y then Real.arctan (y / x) + Real.pi
  else if x < 0 ∧ y < 0 then Real.arctan (y / x) - Real.pi
  else if x = 0 ∧ 0 < y then Real.pi / 2
  else if x = 0 ∧ y < 0 then -(Real.pi / 2)
  else 0

/-- Earth radius used by `@turf/helpers`, in kilometres. -/
noncomputable def earthRadiusKm : ℝ :=
  6371.0088

/-- The haversine intermediate value `a` for two (lat, lon) pairs in
degrees. -/
noncomputable def haversineA (p q : ℝ × ℝ) : ℝ :=
  Real.sin (degToRad (q.1 - p.1) / 2) ^ 2 +
    Real.sin (degToRad (q.2 - p.2) / 2) ^ 2 *
      Real.cos (degToRad p.1) * Real.cos (degToRad q.1)

/-- `calculateDistance` on real coordinates: the haversine distance of
`@turf/distance` in kilometres. -/
noncomputable def calculateDistanceR (p q : ℝ × ℝ) : ℝ :=
  2 * atan2 (Real.sqrt (haversineA p q)) (Real.sqrt (1 - haversineA p q)) *
    earthRadiusKm

/-- `calculateDistance` of the source on JavaScript numbers: any `NaN`
coordinate propagates to a `NaN` distance (every step of the haversine
formula maps `NaN` to `NaN`). -/
noncomputable def calculateDistance (p q : JsNum × JsNum) : JsNum :=
  match p, q with
  | (some lat1, some lon1), (some lat2, some lon2) =>
    some (calculateDistanceR (lat1, lon1) (lat2, lon2))
  | _, _ => none

/-! ## Stations, errors and the external environment -/

/-- A raw station record of the cached directory, as delivered by the
upstream `stationList`; `distance` is the request-scoped annotation added by
`getStationsNear` (absent, i.e. `none`, inside the directory itself). -/
structure RawStation where
  stationId : String
  lat : ℝ
  lon : ℝ
  etidesStnName : List Char
  commonName : List Char
  state : String
  region : String
  stationType : String
  distance : JsNum := none

/-- The runtime errors a handler can throw: the `RangeError` of coordinate
validation, a `TypeError` from dereferencing `undefined`, a plain
`new Error(...)`, and a failed upstream fetch rethrown by `await`. -/
inductive JsErr
  | rangeError (msg : String)
  | typeError (msg : String)
  | jsError (msg : String)
  | fetchFailed (msg : String)
deriving DecidableEq

/-- The `message` property of a thrown error. -/
def errMessage : JsErr → String
  | .rangeError m => m
  | .typeError m => m
  | .jsError m => m
  | .fetchFailed m => m

/-- The JSON error body `{ message }` sent by the route layer. -/
structure ErrorBody where
  message : String
deriving DecidableEq

/-- The route layer's catch clause: any error thrown by a handler becomes a
404 response with body `{ message: err.message }`. -/
def routeErrorResponse (e : JsErr) : Nat × ErrorBody :=
  (404, ⟨errMessage e⟩)

/-- The external collaborators of the module, passed explicitly: the
`geo-tz` timezone lookup, the two `moment-timezone` conversions used when
formatting a prediction, the `APPLICATION` name and the current date
(`moment()`'s date, as a day number). -/
structure Env where
  geoTz : ℝ → ℝ → String
  momentFmt : String → String → String
  momentUnix : String → String → Int
  appName : String
  today : Int

/-- One query-parameter set of a `datagetter` request, as assembled by
`fetchPredictionsForTideStation`. -/
structure PredictionRequest where
  station : String
  beginDate : Int
  range : ℕ
  product : String
  application : String
  datum : String
  timeZone : String
  units : String
  interval : String
  format : String
deriving DecidableEq

/-- A raw prediction point `{t, type, v}` of the upstream response. -/
structure RawPrediction where
  t : String
  type : String
  v : String

/-- The parsed upstream JSON body with its `predictions` array. -/
structure PredictionJson where
  predictions : List RawPrediction

/-- An upstream fetch is an oracle from the request it is sent to the JSON
it resolves with, or the error the `await` rethrows. -/
abbrev FetchOracle := PredictionRequest → Except JsErr PredictionJson

/-- Build the upstream request of `fetchPredictionsForTideStation`:
`begin_date` is one calendar day before today and `range` is
`24 * (days + 2)` hours; the remaining parameters are fixed. -/
def mkPredictionRequest (env : Env) (sid : String) (days : ℕ) : PredictionRequest :=
  ⟨sid, env.today - 1, 24 * (days + 2), "predictions", env.appName, "MLLW",
   "lst_ldt", "english", "hilo", "json"⟩

/-- `fetchPredictionsForTideStation(station, days = 2)`: reading
`station.stationId` of an absent station throws a `TypeError`; otherwise the
request is built and sent.  `days` is `none` when the caller passed no
second argument, in which case the default `2` applies. -/
def fetchPredictionsForTideStation (f : FetchOracle) (env : Env)
    (station : Option RawStation) (days : Option ℕ) : Except JsErr PredictionJson :=
  match station with
  | none => .error (.typeError "Cannot read stationId of undefined")
  | some st => f (mkPredictionRequest env st.stationId (days.getD 2))

/-- The canonical station shape of a response. -/
structure FormattedStation where
  id : String
  name : List Char
  commonName : List Char
  lat : ℝ
  lon : ℝ
  state : String
  region : String
  timeZone : String
  distance : JsNum
  type : String

/-- `formatTideStation`: normalise names, compute the timezone from the
coordinates, map the station type discriminator. -/
def formatTideStation (env : Env) (st : RawStation) : FormattedStation :=
  ⟨st.stationId, formatTideStationName st.etidesStnName,
   formatTideStationName st.commonName, st.lat, st.lon, st.state, st.region,
   env.geoTz st.lat st.lon, st.distance,
   if st.stationType = "R" then "harmonic" else "subordinate"⟩

/-- A formatted prediction point. -/
structure FormattedPrediction where
  type : String
  height : Option ℚ
  time : String
  unixTime : Int

/-- `formatTidePrediction`: map the `H`/`L` discriminator, parse the height,
interpret the local timestamp in the station's timezone. -/
def formatTidePrediction (env : Env) (p : RawPrediction) (st : RawStation) :
    FormattedPrediction :=
  let tz := env.geoTz st.lat st.lon
  ⟨if p.type = "H" then "high" else "low", jsParseFloat p.v,
   env.momentFmt p.t tz, env.momentUnix p.t tz⟩

/-- A station with its prediction sequence: the per-station response DTO. -/
structure StationWithPredictions where
  station : FormattedStation
  predictions : List FormattedPrediction

/-- `getStationPredictions(station, days)`: fetch, then spread the formatted
station and the formatted prediction list. -/
def getStationPredictions (f : FetchOracle) (env : Env)
    (station : Option RawStation) (days : Option ℕ) :
    Except JsErr StationWithPredictions :=
  match fetchPredictionsForTideStation f env station days with
  | .error e => .error e
  | .ok tides =>
    match station with
    | none => .error (.typeError "Cannot read lat of undefined")
    | some st =>
      .ok ⟨formatTideStation env st,
           tides.predictions.map (fun p => formatTidePrediction env p st)⟩

/-! ## Validation, nearest-station search and the handlers -/

/-- JavaScript `<` against a constant: comparisons with `NaN` are false. -/
def jsLt (a : Option ℚ) (q : ℚ) : Bool :=
  match a with
  | none => false
  | some x => decide (x < q)

/-- JavaScript `>` against a constant: comparisons with `NaN` are false. -/
def jsGt (a : Option ℚ) (q : ℚ) : Bool :=
  match a with
  | none => false
  | some x => decide (q < x)

/-- `validateLatitudeAndLongitude`: parse both coordinates and throw a
`RangeError` when a parsed value lies outside its range.  A `NaN` parse
fails every comparison, so it passes validation. -/
def validateLatitudeAndLongitude (latS lonS : String) : Except JsErr Unit :=
  if jsLt (jsParseFloat latS) (-90) || jsGt (jsParseFloat latS) 90 then
    .error (.rangeError "Invalid latitude")
  else if jsLt (jsParseFloat lonS) (-180) || jsGt (jsParseFloat lonS) 180 then
    .error (.rangeError "Invalid longitude")
  else .ok ()

/-- The sort comparator `(a, b) => a.distance - b.distance` as a boolean
"may stay before" relation for a stable sort.  When either distance is `NaN`
the JavaScript comparator returns `NaN`, which the sort treats as `0` (keep
the current order); the two cases the pipeline produces — all distances real,
or all distances `NaN` — are both rendered faithfully. -/
noncomputable def distLe (a b : JsNum) : Bool :=
  match a, b with
  | some x, some y => decide (x ≤ y)
  | none, _ => true
  | some _, none => false

/-- Annotate one station with its distance from the query point, the
`{...station, distance}` spread of `getStationsNear`. -/
noncomputable def annotateDistance (la lo : JsNum) (st : RawStation) : RawStation :=
  { st with distance := calculateDistance (la, lo) (some st.lat, some st.lon) }

/-- The sort comparator of `getStationsNear` on whole station records. -/
noncomputable def stationLe (a b : RawStation) : Bool :=
  distLe a.distance b.distance

/-- `getStationsNear(lat, lon, limit = 10)`: validate, annotate every
directory station with its distance, stable-sort ascending by distance and
take the first `limit`. -/
noncomputable def getStationsNear (latS lonS : String) (dir : List RawStation)
    (limit : ℕ) : Except JsErr (List RawStation) :=
  match validateLatitudeAndLongitude latS lonS with
  | .error e => .error e
  | .ok _ =>
    let withD := dir.map (annotateDistance (toJsNum latS) (toJsNum lonS))
    .ok ((withD.mergeSort stationLe).take limit)

/-- The `async` library's promisified `map` as consumed by the handlers: all
per-item results in input order, or the first error.  (Which error surfaces
when several tasks fail depends on completion timing; the claims only
constrain the success case.) -/
def asyncMap (g : α → Except JsErr β) : List α → Except JsErr (List β)
  | [] => .ok []
  | a :: as =>
    match g a, asyncMap g as with
    | .error e, _ => .error e
    | .ok _, .error e => .error e
    | .ok b, .ok bs => .ok (b :: bs)

/-- Modelled from the spec: the concurrency primitive of the fan-out
(`async`'s `map`, not part of the repository) writes each task's result into
the slot of the task's input index.  `completeTasks` replays those writes in
an arbitrary completion order over an accumulator of slots. -/
def completeTasks {n : ℕ} (tasks : Fin n → β) :
    List (Fin n) → (Fin n → Option β) → Fin n → Option β
  | [], acc => acc
  | i :: rest, acc =>
    completeTasks tasks rest (fun j => if j = i then some (tasks i) else acc j)

/-- The `/near/{lat},{lon}` response body. -/
structure NearResponse where
  lat : JsNum
  lon : JsNum
  stations : List StationWithPredictions

/-- The `/closest/{lat},{lon}` response body. -/
structure ClosestResponse where
  lat : JsNum
  lon : JsNum
  station : StationWithPredictions

/-- `nearHandler`: the ten nearest stations, each fetched with the default
2-day window, assembled in nearest-first order. -/
noncomputable def nearHandler (f : FetchOracle) (env : Env)
    (dir : List RawStation) (latS lonS : String) : Except JsErr NearResponse :=
  match getStationsNear latS lonS dir 10 with
  | .error e => .error e
  | .ok nearby =>
    match asyncMap (fun st => getStationPredictions f env (some st) none) nearby with
    | .error e => .error e
    | .ok sts => .ok ⟨toJsNum latS, toJsNum lonS, sts⟩

/-- `closestHandler`: index `[0]` of the nearest-ten list (which is absent,
i.e. `undefined`, when the directory is empty), fetched with a 7-day
window. -/
noncomputable def closestHandler (f : FetchOracle) (env : Env)
    (dir : List RawStation) (latS lonS : String) : Except JsErr ClosestResponse :=
  match getStationsNear latS lonS dir 10 with
  | .error e => .error e
  | .ok nearby =>
    match getStationPredictions f env nearby.head? (some 7) with
    | .error e => .error e
    | .ok st => .ok ⟨toJsNum latS, toJsNum lonS, st⟩

/-- `tideStations.get(stationId)` over the directory snapshot. -/
def lookupStation (dir : List RawStation) (sid : String) : Option RawStation :=
  dir.find? (fun st => st.stationId == sid)

/-- `individualStationHandler`: unknown ids throw `Error('Invalid station')`
before any fetch; known ids are fetched with a 7-day window. -/
def individualStationHandler (f : FetchOracle) (env : Env)
    (dir : List RawStation) (sid : String) : Except JsErr StationWithPredictions :=
  match lookupStation dir sid with
  | none => .error (.jsError "Invalid station")
  | some st => getStationPredictions f env (some st) (some 7)

/-- The `/all` response body. -/
structure AllResponse where
  stations : List FormattedStation

/-- `allStationsHandler`: every directory station, formatted, no
predictions. -/
def allStationsHandler (env : Env) (dir : List RawStation) : AllResponse :=
  ⟨dir.map (formatTideStation env)⟩

/-- `fetchTideStations` as a state transition of the directory snapshot: a
successful fetch parses `stationList` and replaces the snapshot wholesale; a
failed fetch throws before the assignment, leaving the snapshot unchanged
(the rejection is not delivered to any request handler). -/
def fetchTideStations (result : Except String (List RawStation))
    (current : List RawStation) : List RawStation :=
  match result with
  | .ok stationList => stationList
  | .error _ => current

/-! ## Lemmas about the distance formula -/

theorem degToRad_sub_swap (x y : ℝ) : degToRad (x - y) = -degToRad (y - x) := by
  unfold degToRad
  ring

theorem sin_sq_degToRad_sub_swap (x y : ℝ) :
    Real.sin (degToRad (x - y) / 2) ^ 2 = Real.sin (degToRad (y - x) / 2) ^ 2 := by
  rw [degToRad_sub_swap, neg_div, Real.sin_neg, neg_sq]

theorem haversineA_comm (p q : ℝ × ℝ) : haversineA p q = haversineA q p := by
  unfold haversineA
  rw [sin_sq_degToRad_sub_swap q.1 p.1, sin_sq_degToRad_sub_swap q.2 p.2]
  ring

theorem calculateDistanceR_comm (p q : ℝ × ℝ) :
    calculateDistanceR p q = calculateDistanceR q p := by
  unfold calculateDistanceR
  rw [haversineA_comm]

theorem calculateDistanceR_of_haversineA_eq_zero {p q : ℝ × ℝ}
    (h : haversineA p q = 0) : calculateDistanceR p q = 0 := by
  unfold calculateDistanceR
  rw [h, Real.sqrt_zero]
  rw [show (1 : ℝ) - 0 = 1 by ring, Real.sqrt_one]
  unfold atan2
  rw [if_pos one_pos, zero_div, Real.arctan_zero]
  ring

theorem haversineA_self (p : ℝ × ℝ) : haversineA p p = 0 := by
  unfold haversineA
  rw [show degToRad (p.1 - p.1) = 0 by unfold degToRad; ring,
    show degToRad (p.2 - p.2) = 0 by unfold degToRad; ring]
  rw [zero_div, Real.sin_zero]
  ring

theorem calculateDistanceR_self (p : ℝ × ℝ) : calculateDistanceR p p = 0 :=
  calculateDistanceR_of_haversineA_eq_zero (haversineA_self p)

/-- `calculateDistance` over JavaScript numbers is commutative and vanishes
on equal real coordinate pairs, inherited from the real haversine core.
(What the floating-point zero set of the program's distance looks like away
from equal pairs is an IEEE-754 question that this real-valued embedding
does not settle.) -/
theorem calculateDistance_comm_self_zero :
    (∀ a b : JsNum × JsNum, calculateDistance a b = calculateDistance b a) ∧
      (∀ la lo : ℝ, calculateDistance (some la, some lo) (some la, some lo) = some 0) := by
  constructor
  · rintro ⟨a1 | a1, a2⟩ ⟨b1, b2⟩ <;> rcases a2 with _ | a2 <;> rcases b1 with _ | b1 <;>
      rcases b2 with _ | b2 <;> simp [calculateDistance] <;>
      exact calculateDistanceR_comm _ _
  · intro la lo
    show some (calculateDistanceR (la, lo) (la, lo)) = some 0
    rw [calculateDistanceR_self]

/-! ## Lemmas about case conversion and the name normaliser -/

theorem toNat_ofNat_valid (n : ℕ) (h : n < 55296) : (Char.ofNat n).toNat = n := by
  unfold Char.ofNat
  rw [dif_pos (Or.inl h)]
  rfl

theorem toNat_le_of_char_le {a b : Char} (h : a ≤ b) : a.toNat ≤ b.toNat := h

theorem char_le_of_toNat_le {a b : Char} (h : a.toNat ≤ b.toNat) : a ≤ b := h

theorem char_eq_of_toNat_eq {a b : Char} (h : a.toNat = b.toNat) : a = b := by
  apply Char.eq_of_val_eq
  apply UInt32.eq_of_toBitVec_eq
  exact BitVec.eq_of_toNat_eq h

theorem lowerChar_toNat (c : Char) :
    (lowerChar c).toNat =
      if 65 ≤ c.toNat ∧ c.toNat ≤ 90 then c.toNat + 32 else c.toNat := by
  unfold lowerChar
  by_cases h : 'A' ≤ c ∧ c ≤ 'Z'
  · have h1 : 65 ≤ c.toNat := h.1
    have h2 : c.toNat ≤ 90 := h.2
    rw [if_pos h, if_pos ⟨h1, h2⟩, toNat_ofNat_valid _ (by omega)]
  · rw [if_neg h, if_neg]
    intro hc
    exact h ⟨char_le_of_toNat_le hc.1, char_le_of_toNat_le hc.2⟩

theorem upperChar_toNat (c : Char) :
    (upperChar c).toNat =
      if 97 ≤ c.toNat ∧ c.toNat ≤ 122 then c.toNat - 32 else c.toNat := by
  unfold upperChar
  by_cases h : 'a' ≤ c ∧ c ≤ 'z'
  · have h1 : 97 ≤ c.toNat := h.1
    have h2 : c.toNat ≤ 122 := h.2
    rw [if_pos h, if_pos ⟨h1, h2⟩, toNat_ofNat_valid _ (by omega)]
  · rw [if_neg h, if_neg]
    intro hc
    exact h ⟨char_le_of_toNat_le hc.1, char_le_of_toNat_le hc.2⟩

theorem lowerChar_lowerChar (c : Char) : lowerChar (lowerChar c) = lowerChar c := by
  apply char_eq_of_toNat_eq
  rw [lowerChar_toNat (lowerChar c), lowerChar_toNat c]
  by_cases hc : 65 ≤ c.toNat ∧ c.toNat ≤ 90
  · rw [if_pos hc, if_neg (by omega)]
  · rw [if_neg hc, if_neg hc]

theorem lowerChar_upperChar (c : Char) : lowerChar (upperChar c) = lowerChar c := by
  apply char_eq_of_toNat_eq
  rw [lowerChar_toNat (upperChar c), lowerChar_toNat c, upperChar_toNat c]
  by_cases hc : 97 ≤ c.toNat ∧ c.toNat ≤ 122
  · rw [if_pos hc, if_pos (by omega), if_neg (by omega)]
    omega
  · rw [if_neg hc]

theorem toLowerList_toLowerList (s : List Char) :
    toLowerList (toLowerList s) = toLowerList s := by
  unfold toLowerList
  rw [List.map_map]
  exact List.map_congr_left fun c _ => lowerChar_lowerChar c

theorem toLowerList_capitalizeWord (w : List Char) :
    toLowerList (capitalizeWord w) = toLowerList w := by
  cases w with
  | nil => rfl
  | cons c cs =>
    show lowerChar (upperChar c) :: cs.map lowerChar = lowerChar c :: cs.map lowerChar
    rw [lowerChar_upperChar]

theorem toLowerList_joinWords (ws : List (List Char)) :
    toLowerList (joinWords ws) = joinWords (ws.map toLowerList) := by
  induction ws with
  | nil => rfl
  | cons w ws ih =>
    cases ws with
    | nil => rfl
    | cons w2 ws2 =>
      show toLowerList (w ++ ' ' :: joinWords (w2 :: ws2)) =
        toLowerList w ++ ' ' :: joinWords ((w2 :: ws2).map toLowerList)
      unfold toLowerList
      rw [List.map_append, List.map_cons]
      rw [show lowerChar ' ' = ' ' by decide]
      rw [show (joinWords (w2 :: ws2)).map lowerChar =
        toLowerList (joinWords (w2 :: ws2)) from rfl, ih]
      rfl

theorem splitWords_ne_nil (s : List Char) : splitWords s ≠ [] := by
  cases s with
  | nil => simp [splitWords]
  | cons c cs =>
    unfold splitWords
    cases h : splitWords cs with
    | nil => simp
    | cons w ws => by_cases hc : c = ' ' <;> simp [hc]

theorem joinWords_splitWords (s : List Char) : joinWords (splitWords s) = s := by
  induction s with
  | nil => rfl
  | cons c cs ih =>
    cases h : splitWords cs with
    | nil => exact absurd h (splitWords_ne_nil cs)
    | cons w ws =>
      rw [h] at ih
      by_cases hc : c = ' '
      · subst hc
        simp only [splitWords, h, if_true]
        show [] ++ ' ' :: joinWords (w :: ws) = ' ' :: cs
        rw [List.nil_append, ih]
      · simp only [splitWords, h]
        rw [if_neg hc]
        cases ws with
        | nil =>
          show c :: w = c :: cs
          rw [show joinWords [w] = w from rfl] at ih
          rw [ih]
        | cons w2 ws2 =>
          show (c :: w) ++ ' ' :: joinWords (w2 :: ws2) = c :: cs
          exact congrArg (c :: ·) ih

theorem toLowerList_mapWithIndex_title (n : ℕ) :
    ∀ (ws : List (List Char)) (i : ℕ),
      (mapWithIndex
        (fun i w =>
          if i ≠ 0 ∧ i ≠ n ∧ toLowerList w ∈ minorWords then w
          else capitalizeWord w) i ws).map toLowerList = ws.map toLowerList := by
  intro ws
  induction ws with
  | nil => intro i; rfl
  | cons w ws ih =>
    intro i
    show (if i ≠ 0 ∧ i ≠ n ∧ toLowerList w ∈ minorWords then w
      else capitalizeWord w).map lowerChar :: _ = w.map lowerChar :: ws.map toLowerList
    rw [ih (i + 1)]
    by_cases hb : i ≠ 0 ∧ i ≠ n ∧ toLowerList w ∈ minorWords
    · rw [if_pos hb]
    · rw [if_neg hb]
      exact congrArg (· :: ws.map toLowerList) (toLowerList_capitalizeWord w)

theorem toLowerList_titleCase (s : List Char) :
    toLowerList (titleCase s) = toLowerList s := by
  unfold titleCase
  rw [toLowerList_joinWords, toLowerList_mapWithIndex_title,
    ← toLowerList_joinWords, joinWords_splitWords]

theorem toLowerList_replaceFirst :
    ∀ s : List Char, toLowerList s = s →
      toLowerList (replaceFirst usLower usUpper s) = s := by
  intro s
  induction s with
  | nil => intro _; rfl
  | cons c cs ih =>
    intro hs
    have hs' : lowerChar c :: toLowerList cs = c :: cs := hs
    injection hs' with hc hcs
    by_cases hp : usLower.isPrefixOf (c :: cs) = true
    · obtain ⟨t, ht⟩ := List.isPrefixOf_iff_prefix.mp hp
      have hd : (c :: cs).drop usLower.length = t := by
        rw [← ht, List.drop_left]
      show toLowerList
        (if usLower.isPrefixOf (c :: cs) then usUpper ++ (c :: cs).drop usLower.length
         else c :: replaceFirst usLower usUpper cs) = c :: cs
      rw [if_pos hp, hd]
      unfold toLowerList
      rw [List.map_append, show usUpper.map lowerChar = usLower by decide]
      have hlow : usLower ++ t.map lowerChar = usLower ++ t := by
        have h3 : toLowerList (usLower ++ t) = usLower ++ t := by rw [ht]; exact hs
        unfold toLowerList at h3
        rw [List.map_append, show usLower.map lowerChar = usLower by decide] at h3
        exact h3
      rw [List.append_cancel_left hlow, ht]
    · show toLowerList
        (if usLower.isPrefixOf (c :: cs) then usUpper ++ (c :: cs).drop usLower.length
         else c :: replaceFirst usLower usUpper cs) = c :: cs
      rw [if_neg hp]
      show lowerChar c :: toLowerList (replaceFirst usLower usUpper cs) = c :: cs
      rw [hc, ih hcs]

/-- C8: the station-name normaliser is idempotent — applying
`formatTideStationName` twice equals applying it once — and it maps the
empty string to the empty string. -/
theorem claim8_normalize_idempotent :
    (∀ s : List Char,
      formatTideStationName (formatTideStationName s) = formatTideStationName s) ∧
      formatTideStationName [] = [] := by
  constructor
  · intro s
    have harg : toLowerList (formatTideStationName s) = toLowerList s := by
      unfold formatTideStationName
      rw [toLowerList_titleCase]
      exact toLowerList_replaceFirst _ (toLowerList_toLowerList s)
    show titleCase (replaceFirst usLower usUpper
      (toLowerList (formatTideStationName s))) = formatTideStationName s
    rw [harg]
    rfl
  · decide

/-! ## Lemmas about validation and the handlers -/

theorem validate_ok_of_parses {latS lonS : String} {la lo : ℚ}
    (h1 : jsParseFloat latS = some la) (h2 : -90 ≤ la) (h3 : la ≤ 90)
    (h4 : jsParseFloat lonS = some lo) (h5 : -180 ≤ lo) (h6 : lo ≤ 180) :
    validateLatitudeAndLongitude latS lonS = .ok () := by
  have e1 : jsLt (some la) (-90) = false := decide_eq_false (not_lt.mpr h2)
  have e2 : jsGt (some la) 90 = false := decide_eq_false (not_lt.mpr h3)
  have e3 : jsLt (some lo) (-180) = false := decide_eq_false (not_lt.mpr h5)
  have e4 : jsGt (some lo) 180 = false := decide_eq_false (not_lt.mpr h6)
  unfold validateLatitudeAndLongitude
  rw [h1, h4, e1, e2, e3, e4]
  rfl

theorem validate_ok_of_nan {latS lonS : String}
    (h1 : jsParseFloat latS = none) (h2 : jsParseFloat lonS = none) :
    validateLatitudeAndLongitude latS lonS = .ok () := by
  unfold validateLatitudeAndLongitude
  rw [h1, h2]
  rfl

theorem validate_error_of_out_of_range {latS lonS : String}
    (h : (∃ la, jsParseFloat latS = some la ∧ (la < -90 ∨ 90 < la)) ∨
      (∃ lo, jsParseFloat lonS = some lo ∧ (lo < -180 ∨ 180 < lo))) :
    ∃ msg, validateLatitudeAndLongitude latS lonS = .error (.rangeError msg) := by
  by_cases hb : (jsLt (jsParseFloat latS) (-90) || jsGt (jsParseFloat latS) 90) = true
  · refine ⟨"Invalid latitude", ?_⟩
    unfold validateLatitudeAndLongitude
    rw [if_pos hb]
  · rcases h with ⟨la, hla, hout⟩ | ⟨lo, hlo, hout⟩
    · exfalso
      apply hb
      rw [hla, Bool.or_eq_true]
      rcases hout with hout | hout
      · exact Or.inl (decide_eq_true hout)
      · exact Or.inr (decide_eq_true hout)
    · refine ⟨"Invalid longitude", ?_⟩
      unfold validateLatitudeAndLongitude
      rw [if_neg hb, if_pos]
      rw [hlo, Bool.or_eq_true]
      rcases hout with hout | hout
      · exact Or.inl (decide_eq_true hout)
      · exact Or.inr (decide_eq_true hout)

theorem getStationsNear_validate_error {latS lonS : String} {e : JsErr}
    (dir : List RawStation) (limit : ℕ)
    (hv : validateLatitudeAndLongitude latS lonS = .error e) :
    getStationsNear latS lonS dir limit = .error e := by
  unfold getStationsNear
  rw [hv]

theorem nearHandler_validate_error {latS lonS : String} {e : JsErr}
    (f : FetchOracle) (env : Env) (dir : List RawStation)
    (hv : validateLatitudeAndLongitude latS lonS = .error e) :
    nearHandler f env dir latS lonS = .error e := by
  unfold nearHandler
  rw [getStationsNear_validate_error dir 10 hv]

theorem closestHandler_validate_error {latS lonS : String} {e : JsErr}
    (f : FetchOracle) (env : Env) (dir : List RawStation)
    (hv : validateLatitudeAndLongitude latS lonS = .error e) :
    closestHandler f env dir latS lonS = .error e := by
  unfold closestHandler
  rw [getStationsNear_validate_error dir 10 hv]

theorem getStationsNear_empty (latS lonS : String)
    (hv : validateLatitudeAndLongitude latS lonS = .ok ()) :
    getStationsNear latS lonS [] 10 = .ok [] := by
  unfold getStationsNear
  rw [hv]
  simp [List.mergeSort_nil]

theorem asyncMap_ok_length {g : α → Except JsErr β} :
    ∀ {l : List α} {out : List β}, asyncMap g l = .ok out → out.length = l.length := by
  intro l
  induction l with
  | nil =>
    intro out h
    injection h with h
    rw [← h]
    rfl
  | cons a as ih =>
    intro out h
    unfold asyncMap at h
    cases ha : g a with
    | error e => rw [ha] at h; exact absurd h (by simp)
    | ok b =>
      rw [ha] at h
      cases has : asyncMap g as with
      | error e => rw [has] at h; exact absurd h (by simp)
      | ok bs =>
        rw [has] at h
        injection h with h
        rw [← h]
        show bs.length + 1 = as.length + 1
        rw [ih has]

theorem asyncMap_ok_get {g : α → Except JsErr β} :
    ∀ {l : List α} {out : List β}, asyncMap g l = .ok out →
      ∀ (i : ℕ) (h1 : i < l.length) (h2 : i < out.length),
        g (l.get ⟨i, h1⟩) = .ok (out.get ⟨i, h2⟩) := by
  intro l
  induction l with
  | nil =>
    intro out h i h1 h2
    exact absurd h1 (Nat.not_lt_zero i)
  | cons a as ih =>
    intro out h i h1 h2
    unfold asyncMap at h
    cases ha : g a with
    | error e => rw [ha] at h; exact absurd h (by simp)
    | ok b =>
      rw [ha] at h
      cases has : asyncMap g as with
      | error e => rw [has] at h; exact absurd h (by simp)
      | ok bs =>
        rw [has] at h
        injection h with h
        subst h
        cases i with
        | zero => exact ha
        | succ j => exact ih has j (Nat.lt_of_succ_lt_succ h1) (Nat.lt_of_succ_lt_succ h2)

theorem asyncMap_congr {g1 g2 : α → Except JsErr β} :
    ∀ {l : List α}, (∀ a ∈ l, g1 a = g2 a) → asyncMap g1 l = asyncMap g2 l := by
  intro l
  induction l with
  | nil => intro _; rfl
  | cons a as ih =>
    intro h
    unfold asyncMap
    rw [h a (List.mem_cons_self a as), ih fun b hb => h b (List.mem_cons_of_mem a hb)]

theorem getStationPredictions_congr (f g : FetchOracle) (env : Env)
    (station : Option RawStation) (days : Option ℕ)
    (h : ∀ r, r.beginDate = env.today - 1 → r.range = 24 * (days.getD 2 + 2) →
      f r = g r) :
    getStationPredictions f env station days = getStationPredictions g env station days := by
  cases station with
  | none => rfl
  | some st =>
    simp only [getStationPredictions, fetchPredictionsForTideStation]
    rw [h (mkPredictionRequest env st.stationId (days.getD 2)) rfl rfl]

theorem getStationPredictions_ok_station {f : FetchOracle} {env : Env}
    {st : RawStation} {days : Option ℕ} {sp : StationWithPredictions}
    (h : getStationPredictions f env (some st) days = .ok sp) :
    sp.station = formatTideStation env st := by
  cases hf : f (mkPredictionRequest env st.stationId (days.getD 2)) with
  | error e =>
    simp only [getStationPredictions, fetchPredictionsForTideStation, hf] at h
    exact absurd h (by simp)
  | ok tides =>
    simp only [getStationPredictions, fetchPredictionsForTideStation, hf] at h
    injection h with h
    rw [← h]

theorem distLe_refl (a : JsNum) : distLe a a = true := by
  cases a with
  | none => rfl
  | some x => exact decide_eq_true le_rfl

theorem distLe_trans (a b c : JsNum) (h1 : distLe a b = true) (h2 : distLe b c = true) :
    distLe a c = true := by
  cases a with
  | none => rfl
  | some x =>
    cases b with
    | none => exact absurd h1 (by simp [distLe])
    | some y =>
      cases c with
      | none => exact absurd h2 (by simp [distLe])
      | some z =>
        have hx : x ≤ y := of_decide_eq_true h1
        have hy : y ≤ z := of_decide_eq_true h2
        exact decide_eq_true (hx.trans hy)

theorem distLe_total (a b : JsNum) : (distLe a b || distLe b a) = true := by
  cases a with
  | none => rfl
  | some x =>
    cases b with
    | none => rfl
    | some y =>
      rw [Bool.or_eq_true]
      rcases le_total x y with h | h
      · exact Or.inl (decide_eq_true h)
      · exact Or.inr (decide_eq_true h)

theorem stationLe_trans (a b c : RawStation)
    (h1 : stationLe a b = true) (h2 : stationLe b c = true) :
    stationLe a c = true :=
  distLe_trans a.distance b.distance c.distance h1 h2

theorem stationLe_total (a b : RawStation) :
    (stationLe a b || stationLe b a) = true :=
  distLe_total a.distance b.distance

theorem mergeSort_filter_of_class {α} {le : α → α → Bool}
    (htrans : ∀ a b c : α, le a b = true → le b c = true → le a c = true)
    (htotal : ∀ a b : α, (le a b || le b a) = true)
    (l : List α) (p : α → Bool) (hp : ∀ a b, p a = true → p b = true → le a b = true) :
    (l.mergeSort le).filter p = l.filter p := by
  have hpw : (l.filter p).Pairwise (fun a b => le a b = true) := by
    apply List.pairwise_of_forall_mem_list
    intro a ha b hb
    exact hp a b (List.of_mem_filter ha) (List.of_mem_filter hb)
  have hsub : (l.filter p).Sublist (l.mergeSort le) :=
    List.sublist_mergeSort htrans htotal hpw (List.filter_sublist l)
  have hsub2 : (l.filter p).Sublist ((l.mergeSort le).filter p) := by
    have hthis := List.Sublist.filter p hsub
    rw [List.filter_filter] at hthis
    simp only [Bool.and_self] at hthis
    exact hthis
  have hlen : ((l.mergeSort le).filter p).length = (l.filter p).length :=
    (List.Perm.filter p (List.mergeSort_perm l le)).length_eq
  exact (hsub2.eq_of_length hlen.symm).symm

theorem completeTasks_covers {n : ℕ} (tasks : Fin n → β) :
    ∀ (order : List (Fin n)) (acc : Fin n → Option β) (i : Fin n),
      i ∈ order ∨ acc i = some (tasks i) →
      completeTasks tasks order acc i = some (tasks i) := by
  intro order
  induction order with
  | nil =>
    intro acc i h
    rcases h with h | h
    · exact absurd h (List.not_mem_nil i)
    · exact h
  | cons j rest ih =>
    intro acc i h
    show completeTasks tasks rest (fun k => if k = j then some (tasks j) else acc k) i
      = some (tasks i)
    apply ih
    rcases h with h | h
    · rcases List.mem_cons.mp h with h | h
      · subst h
        exact Or.inr (by rw [if_pos rfl])
      · exact Or.inl h
    · by_cases hij : i = j
      · subst hij
        exact Or.inr (by rw [if_pos rfl])
      · exact Or.inr (by rw [if_neg hij]; exact h)

/-! ## Concrete fixtures used by the witnesses -/

/-- An upstream that always resolves with an empty prediction list. -/
def constOracle : FetchOracle :=
  fun _ => .ok ⟨[]⟩

/-- An upstream that fails only on requests with an impossible zero-hour
range; it agrees with `constOracle` on every request the handlers build. -/
def zeroRangeOracle : FetchOracle :=
  fun r => if r.range = 0 then .error (.fetchFailed "bad range") else .ok ⟨[]⟩

/-- A fixed environment for concrete runs. -/
def testEnv : Env :=
  ⟨fun _ _ => "America/New_York", fun _ _ => "", fun _ _ => 0, "test-app", 20000⟩

/-- A fixed station at (40, -74). -/
def testStation : RawStation :=
  ⟨"8517921", 40, -74, ['a'], ['a'], "NY", "", "R", none⟩

/-! ## The claims -/

/-- C3: an out-of-range latitude or longitude makes both `findNear` and
`findClosest` fail with the `RangeError` of coordinate validation — for
every fetch oracle, so no prediction fetch can have been performed. -/
theorem claim3_out_of_range_rejected (f : FetchOracle) (env : Env)
    (dir : List RawStation) (latS lonS : String)
    (h : (∃ la, jsParseFloat latS = some la ∧ (la < -90 ∨ 90 < la)) ∨
      (∃ lo, jsParseFloat lonS = some lo ∧ (lo < -180 ∨ 180 < lo))) :
    ∃ msg, nearHandler f env dir latS lonS = .error (.rangeError msg) ∧
      closestHandler f env dir latS lonS = .error (.rangeError msg) := by
  obtain ⟨msg, hv⟩ := validate_error_of_out_of_range h
  exact ⟨msg, nearHandler_validate_error f env dir hv,
    closestHandler_validate_error f env dir hv⟩

/-- C3 witness: latitude 95 is rejected by both handlers. -/
theorem claim3_witness :
    jsParseFloat "95" = some 95 ∧
    ∃ msg, nearHandler constOracle testEnv [] "95" "0" = .error (.rangeError msg) ∧
      closestHandler constOracle testEnv [] "95" "0" = .error (.rangeError msg) :=
  ⟨by decide,
    claim3_out_of_range_rejected constOracle testEnv [] "95" "0"
      (Or.inl ⟨95, by decide, Or.inr (by norm_num)⟩)⟩

/-- C2 counterexample: with an empty directory and valid coordinates,
`closestHandler` does not fail with the purposeful not-found error of the
code base (`Error('Invalid station')`); it crashes with a `TypeError` from
reading `stationId` of `undefined` (`getStationsNear(...)[0]` of an empty
list). -/
theorem claim2_counterexample :
    closestHandler constOracle testEnv [] "0" "0" =
      .error (.typeError "Cannot read stationId of undefined") ∧
    JsErr.typeError "Cannot read stationId of undefined" ≠
      JsErr.jsError "Invalid station" := by
  constructor
  · have h0 : getStationsNear "0" "0" [] 10 = .ok [] :=
      getStationsNear_empty "0" "0" rfl
    unfold closestHandler
    rw [h0]
    rfl
  · intro h
    exact JsErr.noConfusion h

/-- C2 (amended): with an empty directory and in-range coordinates,
`findClosest` returns no success value: it throws a `TypeError` from
dereferencing the `undefined` nearest station, which the route layer
serialises as a 404 `{ message }` body. -/
theorem claim2_amended (f : FetchOracle) (env : Env) (latS lonS : String)
    (la lo : ℚ)
    (h1 : jsParseFloat latS = some la) (h2 : -90 ≤ la) (h3 : la ≤ 90)
    (h4 : jsParseFloat lonS = some lo) (h5 : -180 ≤ lo) (h6 : lo ≤ 180) :
    closestHandler f env [] latS lonS =
      .error (.typeError "Cannot read stationId of undefined") ∧
    routeErrorResponse (.typeError "Cannot read stationId of undefined") =
      (404, ⟨"Cannot read stationId of undefined"⟩) := by
  refine ⟨?_, rfl⟩
  have hv := validate_ok_of_parses h1 h2 h3 h4 h5 h6
  have h0 := getStationsNear_empty latS lonS hv
  unfold closestHandler
  rw [h0]
  rfl

/-- C2 witness: the amended behaviour at coordinates (0, 0). -/
theorem claim2_witness :
    jsParseFloat "0" = some 0 ∧
    closestHandler constOracle testEnv [] "0" "0" =
      .error (.typeError "Cannot read stationId of undefined") :=
  ⟨by decide,
    (claim2_amended constOracle testEnv "0" "0" 0 0 (by decide) (by norm_num)
      (by norm_num) (by decide) (by norm_num) (by norm_num)).1⟩

/-- C4: a failed directory refresh leaves the snapshot untouched, so the
all-stations listing after a failure equals the listing over the previously
loaded snapshot; no error value flows into the handler. -/
theorem claim4_refresh_failure_retains_snapshot :
    (∀ (e : String) (current : List RawStation),
      fetchTideStations (.error e) current = current) ∧
    (∀ (env : Env) (loaded d0 : List RawStation) (e : String),
      allStationsHandler env
          (fetchTideStations (.error e) (fetchTideStations (.ok loaded) d0)) =
        allStationsHandler env (fetchTideStations (.ok loaded) d0)) :=
  ⟨fun _ _ => rfl, fun _ _ _ _ => rfl⟩

/-- C6: an unknown station id makes `getById` throw `Error('Invalid
station')` for every fetch oracle (so no fetch happens), serialised by the
route layer as a 404 body `{ message: "Invalid station" }`; a known id
proceeds to fetch that station's predictions with a 7-day span. -/
theorem claim6_get_by_id (f : FetchOracle) (env : Env) (dir : List RawStation)
    (sid : String) :
    (lookupStation dir sid = none →
      individualStationHandler f env dir sid = .error (.jsError "Invalid station") ∧
      routeErrorResponse (.jsError "Invalid station") = (404, ⟨"Invalid station"⟩)) ∧
    (∀ st, lookupStation dir sid = some st →
      individualStationHandler f env dir sid =
        getStationPredictions f env (some st) (some 7)) := by
  constructor
  · intro h
    refine ⟨?_, rfl⟩
    unfold individualStationHandler
    rw [h]
  · intro st h
    unfold individualStationHandler
    rw [h]

/-- C6 witness: the unknown id "123" against an empty directory, and the
known id of `testStation` against a one-station directory. -/
theorem claim6_witness :
    individualStationHandler constOracle testEnv [] "123" =
      .error (.jsError "Invalid station") ∧
    individualStationHandler constOracle testEnv [testStation] "8517921" =
      getStationPredictions constOracle testEnv (some testStation) (some 7) :=
  ⟨((claim6_get_by_id constOracle testEnv [] "123").1 rfl).1,
    (claim6_get_by_id constOracle testEnv [testStation] "8517921").2 testStation
      (by simp [lookupStation, testStation, List.find?])⟩

/-- C7: every upstream request begins one day before the current date and
spans `24 * (daySpan + 2)` hours; `findNear` consults the upstream only at
requests built with the default `daySpan = 2` (96 hours), while
`findClosest` and `getById` consult it only at `daySpan = 7` requests
(216 hours) — two oracles agreeing on those requests are
indistinguishable. -/
theorem claim7_prediction_window :
    (∀ (env : Env) (sid : String) (days : ℕ),
      (mkPredictionRequest env sid days).beginDate = env.today - 1 ∧
        (mkPredictionRequest env sid days).range = 24 * (days + 2)) ∧
    (∀ (f : FetchOracle) (env : Env) (st : RawStation) (days : Option ℕ),
      fetchPredictionsForTideStation f env (some st) days =
        f (mkPredictionRequest env st.stationId (days.getD 2))) ∧
    (∀ (f g : FetchOracle) (env : Env) (dir : List RawStation) (latS lonS : String),
      (∀ r, r.beginDate = env.today - 1 → r.range = 24 * (2 + 2) → f r = g r) →
        nearHandler f env dir latS lonS = nearHandler g env dir latS lonS) ∧
    (∀ (f g : FetchOracle) (env : Env) (dir : List RawStation) (latS lonS : String),
      (∀ r, r.beginDate = env.today - 1 → r.range = 24 * (7 + 2) → f r = g r) →
        closestHandler f env dir latS lonS = closestHandler g env dir latS lonS) ∧
    (∀ (f g : FetchOracle) (env : Env) (dir : List RawStation) (sid : String),
      (∀ r, r.beginDate = env.today - 1 → r.range = 24 * (7 + 2) → f r = g r) →
        individualStationHandler f env dir sid =
          individualStationHandler g env dir sid) := by
  refine ⟨fun _ _ _ => ⟨rfl, rfl⟩, fun _ _ _ _ => rfl, ?_, ?_, ?_⟩
  · intro f g env dir latS lonS h
    unfold nearHandler
    rw [show (fun st => getStationPredictions f env (some st) none) =
      (fun st => getStationPredictions g env (some st) none) from
      funext fun st => getStationPredictions_congr f g env (some st) none h]
  · intro f g env dir latS lonS h
    unfold closestHandler
    cases hn : getStationsNear latS lonS dir 10 with
    | error e => rfl
    | ok nearby =>
      show (match getStationPredictions f env nearby.head? (some 7) with
        | Except.error e => (Except.error e : Except JsErr ClosestResponse)
        | Except.ok st => Except.ok ⟨toJsNum latS, toJsNum lonS, st⟩) =
        (match getStationPredictions g env nearby.head? (some 7) with
        | Except.error e => (Except.error e : Except JsErr ClosestResponse)
        | Except.ok st => Except.ok ⟨toJsNum latS, toJsNum lonS, st⟩)
      rw [getStationPredictions_congr f g env nearby.head? (some 7) h]
  · intro f g env dir sid h
    unfold individualStationHandler
    cases hl : lookupStation dir sid with
    | none => rfl
    | some st => exact getStationPredictions_congr f g env (some st) (some 7) h

/-- C7 witness: `constOracle` and `zeroRangeOracle` agree on every request
the handlers build, so all three handlers cannot tell them apart. -/
theorem claim7_witness :
    nearHandler constOracle testEnv [] "0" "0" =
      nearHandler zeroRangeOracle testEnv [] "0" "0" ∧
    closestHandler constOracle testEnv [] "0" "0" =
      closestHandler zeroRangeOracle testEnv [] "0" "0" ∧
    individualStationHandler constOracle testEnv [] "1" =
      individualStationHandler zeroRangeOracle testEnv [] "1" :=
  ⟨claim7_prediction_window.2.2.1 constOracle zeroRangeOracle testEnv [] "0" "0"
      (fun _ _ hr => by simp [constOracle, zeroRangeOracle, hr]),
    claim7_prediction_window.2.2.2.1 constOracle zeroRangeOracle testEnv [] "0" "0"
      (fun _ _ hr => by simp [constOracle, zeroRangeOracle, hr]),
    claim7_prediction_window.2.2.2.2 constOracle zeroRangeOracle testEnv [] "1"
      (fun _ _ hr => by simp [constOracle, zeroRangeOracle, hr])⟩

/-- C10: a coordinate string admitted by the route pattern whose parse is
`NaN` (both coordinates here) passes validation — every range check is false
on `NaN` — and the nearest-station computation proceeds, annotating every
station with a `NaN` distance. -/
theorem claim10_nan_passes_validation (latS lonS : String) (dir : List RawStation)
    (hm1 : coordSegMatches latS = true) (hm2 : coordSegMatches lonS = true)
    (hla : jsParseFloat latS = none) (hlo : jsParseFloat lonS = none) :
    validateLatitudeAndLongitude latS lonS = .ok () ∧
    ∃ out, getStationsNear latS lonS dir 10 = .ok out ∧
      out.length = min 10 dir.length ∧
      ∀ st ∈ out, st.distance = none := by
  have hv := validate_ok_of_nan hla hlo
  refine ⟨hv, ?_⟩
  have hlat : toJsNum latS = none := by unfold toJsNum; rw [hla]; rfl
  refine ⟨((dir.map (annotateDistance (toJsNum latS) (toJsNum lonS))).mergeSort
    stationLe).take 10, ?_, ?_, ?_⟩
  · unfold getStationsNear
    rw [hv]
  · rw [List.length_take, (List.mergeSort_perm _ _).length_eq, List.length_map]
  · intro st hst
    have h1 : st ∈ (dir.map (annotateDistance (toJsNum latS) (toJsNum lonS))).mergeSort
        stationLe := List.mem_of_mem_take hst
    have h2 : st ∈ dir.map (annotateDistance (toJsNum latS) (toJsNum lonS)) :=
      ((List.mergeSort_perm _ _).mem_iff).mp h1
    obtain ⟨st0, _, rfl⟩ := List.mem_map.mp h2
    show calculateDistance (toJsNum latS, toJsNum lonS) (some st0.lat, some st0.lon) = none
    rw [hlat]
    rfl

/-- C10 witness: the string `.-` matches the route pattern, parses to `NaN`,
passes validation, and yields `NaN` distances over a one-station
directory. -/
theorem claim10_witness :
    (coordSegMatches ".-" = true ∧ jsParseFloat ".-" = none) ∧
    (validateLatitudeAndLongitude ".-" ".-" = .ok () ∧
      ∃ out, getStationsNear ".-" ".-" [testStation] 10 = .ok out ∧
        out.length = min 10 [testStation].length ∧
        ∀ st ∈ out, st.distance = none) :=
  ⟨⟨by decide, by decide⟩,
    claim10_nan_passes_validation ".-" ".-" [testStation] (by decide) (by decide)
      (by decide) (by decide)⟩

/-- C5: in a successful `findNear` response the prediction results stand in
index-for-index correspondence with the nearest-first candidate list fixed
before the fan-out, and replaying the per-slot writes of the concurrency
primitive in any completion order that finishes every task puts the result
of task `i` in slot `i`. -/
theorem claim5_fanout_preserves_input_order (f : FetchOracle) (env : Env)
    (dir : List RawStation) (latS lonS : String)
    (nearby : List RawStation) (resp : NearResponse)
    (hnear : getStationsNear latS lonS dir 10 = .ok nearby)
    (hresp : nearHandler f env dir latS lonS = .ok resp) :
    resp.stations.length = nearby.length ∧
    (∀ (i : ℕ) (h1 : i < nearby.length) (h2 : i < resp.stations.length),
      getStationPredictions f env (some (nearby.get ⟨i, h1⟩)) none =
        .ok (resp.stations.get ⟨i, h2⟩)) ∧
    (∀ (order : List (Fin nearby.length)), (∀ j, j ∈ order) →
      ∀ i : Fin nearby.length,
        completeTasks (fun j => getStationPredictions f env (some (nearby.get j)) none)
            order (fun _ => none) i =
          some (getStationPredictions f env (some (nearby.get i)) none)) := by
  have hasync : asyncMap (fun st => getStationPredictions f env (some st) none) nearby =
      .ok resp.stations := by
    unfold nearHandler at hresp
    rw [hnear] at hresp
    have hresp2 :
        (match asyncMap (fun st => getStationPredictions f env (some st) none) nearby with
          | Except.error e => (Except.error e : Except JsErr NearResponse)
          | Except.ok sts => Except.ok ⟨toJsNum latS, toJsNum lonS, sts⟩) =
          Except.ok resp := hresp
    cases ha : asyncMap (fun st => getStationPredictions f env (some st) none) nearby with
    | error e => rw [ha] at hresp2; exact absurd hresp2 (by simp)
    | ok sts =>
      rw [ha] at hresp2
      injection hresp2 with hresp2
      rw [← hresp2]
  refine ⟨asyncMap_ok_length hasync, ?_, ?_⟩
  · intro i h1 h2
    exact asyncMap_ok_get hasync i h1 h2
  · intro order hcov i
    exact completeTasks_covers _ order _ i (Or.inl (hcov i))

/-- C5 witness: a concrete successful run over the empty directory. -/
theorem claim5_witness :
    getStationsNear "0" "0" [] 10 = .ok [] ∧
    nearHandler constOracle testEnv [] "0" "0" =
      .ok ⟨toJsNum "0", toJsNum "0", []⟩ ∧
    (⟨toJsNum "0", toJsNum "0", []⟩ : NearResponse).stations.length =
      ([] : List RawStation).length := by
  have hnear : getStationsNear "0" "0" [] 10 = .ok [] :=
    getStationsNear_empty "0" "0" rfl
  have hresp : nearHandler constOracle testEnv [] "0" "0" =
      .ok ⟨toJsNum "0", toJsNum "0", []⟩ := by
    unfold nearHandler
    rw [hnear]
    rfl
  exact ⟨hnear, hresp,
    (claim5_fanout_preserves_input_order constOracle testEnv [] "0" "0" []
      ⟨toJsNum "0", toJsNum "0", []⟩ hnear hresp).1⟩

/-- C1: for in-range coordinates, `getStationsNear` succeeds with exactly
`min 10 |directory|` stations, sorted non-decreasingly by their annotated
distance, each annotated with the distance computed from the query point;
ties keep the original snapshot order (the filter at every distance value is
a prefix of the annotated directory's filter, i.e. the sort is stable); and
a successful `findNear` response carries those distances index for index. -/
theorem claim1_near_min_ten_sorted_stable (latS lonS : String)
    (dir : List RawStation) (f : FetchOracle) (env : Env) (la lo : ℚ)
    (h1 : jsParseFloat latS = some la) (h2 : -90 ≤ la) (h3 : la ≤ 90)
    (h4 : jsParseFloat lonS = some lo) (h5 : -180 ≤ lo) (h6 : lo ≤ 180) :
    ∃ out, getStationsNear latS lonS dir 10 = .ok out ∧
      out.length = min 10 dir.length ∧
      List.Pairwise (fun a b => stationLe a b = true) out ∧
      (∀ st ∈ out, st.distance =
        calculateDistance (toJsNum latS, toJsNum lonS) (some st.lat, some st.lon)) ∧
      (∀ d : JsNum, out.filter (fun st => decide (st.distance = d)) <+:
        (dir.map (annotateDistance (toJsNum latS) (toJsNum lonS))).filter
          (fun st => decide (st.distance = d))) ∧
      (∀ resp, nearHandler f env dir latS lonS = .ok resp →
        resp.stations.length = out.length ∧
        ∀ (i : ℕ) (hi : i < out.length) (hj : i < resp.stations.length),
          (resp.stations.get ⟨i, hj⟩).station.distance = (out.get ⟨i, hi⟩).distance) := by
  have hv := validate_ok_of_parses h1 h2 h3 h4 h5 h6
  have hout : getStationsNear latS lonS dir 10 =
      .ok (((dir.map (annotateDistance (toJsNum latS) (toJsNum lonS))).mergeSort
        stationLe).take 10) := by
    unfold getStationsNear
    rw [hv]
  refine ⟨((dir.map (annotateDistance (toJsNum latS) (toJsNum lonS))).mergeSort
    stationLe).take 10, hout, ?_, ?_, ?_, ?_, ?_⟩
  · rw [List.length_take, (List.mergeSort_perm _ _).length_eq, List.length_map]
  · exact List.Pairwise.sublist (List.take_sublist 10 _)
      (List.sorted_mergeSort stationLe_trans stationLe_total _)
  · intro st hst
    have hm : st ∈ (dir.map (annotateDistance (toJsNum latS) (toJsNum lonS))).mergeSort
        stationLe := List.mem_of_mem_take hst
    have hm2 : st ∈ dir.map (annotateDistance (toJsNum latS) (toJsNum lonS)) :=
      ((List.mergeSort_perm _ _).mem_iff).mp hm
    obtain ⟨st0, _, rfl⟩ := List.mem_map.mp hm2
    rfl
  · intro d
    have hp : ∀ a b : RawStation, decide (a.distance = d) = true →
        decide (b.distance = d) = true → stationLe a b = true := by
      intro a b ha hb
      have ha' := of_decide_eq_true ha
      have hb' := of_decide_eq_true hb
      show distLe a.distance b.distance = true
      rw [ha', hb']
      exact distLe_refl d
    have hfil := mergeSort_filter_of_class stationLe_trans stationLe_total
      (dir.map (annotateDistance (toJsNum latS) (toJsNum lonS)))
      (fun st => decide (st.distance = d)) hp
    refine ⟨(((dir.map (annotateDistance (toJsNum latS) (toJsNum lonS))).mergeSort
      stationLe).drop 10).filter (fun st => decide (st.distance = d)), ?_⟩
    rw [← List.filter_append, List.take_append_drop, hfil]
  · intro resp hresp
    have hasync : asyncMap (fun st => getStationPredictions f env (some st) none)
        (((dir.map (annotateDistance (toJsNum latS) (toJsNum lonS))).mergeSort
          stationLe).take 10) = .ok resp.stations := by
      unfold nearHandler at hresp
      rw [hout] at hresp
      have hresp2 :
          (match asyncMap (fun st => getStationPredictions f env (some st) none)
              (((dir.map (annotateDistance (toJsNum latS) (toJsNum lonS))).mergeSort
                stationLe).take 10) with
            | Except.error e => (Except.error e : Except JsErr NearResponse)
            | Except.ok sts => Except.ok ⟨toJsNum latS, toJsNum lonS, sts⟩) =
            Except.ok resp := hresp
      cases ha : asyncMap (fun st => getStationPredictions f env (some st) none)
          (((dir.map (annotateDistance (toJsNum latS) (toJsNum lonS))).mergeSort
            stationLe).take 10) with
      | error e => rw [ha] at hresp2; exact absurd hresp2 (by simp)
      | ok sts =>
        rw [ha] at hresp2
        injection hresp2 with hresp2
        rw [← hresp2]
    refine ⟨asyncMap_ok_length hasync, ?_⟩
    intro i hi hj
    have hg := asyncMap_ok_get hasync i hi hj
    rw [getStationPredictions_ok_station hg]
    rfl

/-- C1 witness: the theorem applied at coordinates (0, 0) over the empty
directory. -/
theorem claim1_witness :
    (jsParseFloat "0" = some 0 ∧ -90 ≤ (0 : ℚ) ∧ (0 : ℚ) ≤ 90) ∧
    ∃ out, getStationsNear "0" "0" [] 10 = Except.ok out ∧
      out.length = min 10 ([] : List RawStation).length := by
  refine ⟨⟨by decide, by norm_num, by norm_num⟩, ?_⟩
  obtain ⟨out, ha, hb, -⟩ := claim1_near_min_ten_sorted_stable "0" "0" []
    constOracle testEnv 0 0 (by decide) (by norm_num) (by norm_num) (by decide)
    (by norm_num) (by norm_num)
  exact ⟨out, ha, hb⟩

end TidePred
